import Mathlib

/-!
Shallow embedding of the wetransfer-python-sdk core (items.py, transfer.py,
client.py, api_requests.py) and proofs about its specification claims.

Modelling conventions:
* HTTP responses are passed in as explicit parameters (`respOk : Bool` for
  `response.ok`, plus the parsed JSON body), since the transport is an
  external collaborator.
* Python exceptions are modelled with `Except`; a raised exception carries
  the message and, where mutation precedes the raise, the mutated state.
* File contents are `List Char` (the source opens files in text mode and
  reads character chunks).
* Loops that read a file until exhaustion are written with a fuel argument
  bounded by the content length: each iteration with a positive chunk size
  consumes at least one character, so `content.length` steps always suffice,
  and the definition stays structurally recursive (hence executable).
-/

namespace WeTransferSDK

/-- `File.CHUNK_SIZE` from items.py: 6291456 bytes (6 MiB). -/
def CHUNK_SIZE : Nat := 6291456

/-- The read loop of `File.upload` (items.py): `iter(lambda: f.read(CHUNK_SIZE), '')`
splits the remaining content into successive `c`-sized pieces, stopping when a
read returns the empty string.  `fuel` bounds the number of iterations; with
`xs.length ≤ fuel` it never runs out (each iteration drops at least one
character when the read is non-empty). -/
def readPiecesAux (c : Nat) : Nat → List Char → List (List Char)
  | 0, _ => []
  | fuel + 1, xs =>
    if xs.take c = [] then []
    else xs.take c :: readPiecesAux c fuel (xs.drop c)

/-- All pieces produced by the chunking loop of `File.upload` for content `xs`. -/
def readPieces (c : Nat) (xs : List Char) : List (List Char) :=
  readPiecesAux c xs.length xs

/-- The body of `File.upload`'s loop (items.py lines 57-64): for each piece,
`upload_part(piece, i)` is attempted (modelled by the oracle `ok`, giving the
boolean result of `upload_part` for a given part number and piece); on the
first failure the function returns `False` at once.  The result records the
list of `upload_part` calls actually made (part number, piece) and the loop's
outcome (`true` = fell through, `false` = aborted by a failed part). -/
def uploadLoopAux (ok : Nat → List Char → Bool) (c : Nat) :
    Nat → Nat → List Char → List (Nat × List Char) × Bool
  | 0, _, _ => ([], true)
  | fuel + 1, i, xs =>
    if xs.take c = [] then ([], true)
    else if ok i (xs.take c) then
      let r := uploadLoopAux ok c fuel (i + 1) (xs.drop c)
      ((i, xs.take c) :: r.1, r.2)
    else ([(i, xs.take c)], false)

/-- `File.upload` (items.py): run the chunked part-upload loop starting at
part number 1; if it aborts, return `false` without the finish call; otherwise
POST `FinishUpload` (its `res.ok` is the parameter `finishOk`) and return its
success.  Result: (upload_part calls made, number of finish calls made,
returned boolean). -/
def File.uploadRun (c : Nat) (content : List Char) (ok : Nat → List Char → Bool)
    (finishOk : Bool) : List (Nat × List Char) × Nat × Bool :=
  let r := uploadLoopAux ok c content.length 1 content
  if r.2 then (r.1, 1, finishOk) else (r.1, 0, false)

/-- The `(part number, piece)` upload calls made by `File.upload`'s chunking
loop when every part upload succeeds: the loop's pure chunking behaviour. -/
def uploadParts (c : Nat) (xs : List Char) : List (Nat × List Char) :=
  (uploadLoopAux (fun _ _ => true) c xs.length 1 xs).1

-- ### Data model for `Transfer`, items and client

/-- Python `str()` of simple JSON values (as used by `str(body["token"])` in
client.py). -/
inductive JVal
  | jstr (s : String)
  | jnum (n : Int)
  | jbool (b : Bool)
  | jnull
deriving DecidableEq

def JVal.pyStr : JVal → String
  | .jstr s => s
  | .jnum n => toString n
  | .jbool b => if b then "True" else "False"
  | .jnull => "None"

/-- The `client_options` dict shared by a `Transfer` and its requests
(transfer.py `__init__`). -/
structure ClientOptions where
  name : String
  key : String
  token : Option String
  server : Option String
deriving DecidableEq

/-- A transfer item (a `File` or `Link` instance from items.py):
`contentIdentifier` is "file" for File and "web_content" for Link; the
server-assigned fields are `none` until `load_info` populates them. -/
structure Item where
  contentIdentifier : String
  localIdentifier : String
  filename : String := ""
  filesize : Nat := 0
  url : String := ""
  title : String := ""
  id : Option String := none
  transferId : Option String := none
  clientOptions : Option ClientOptions := none
  multipartParts : Option Nat := none
  multipartUploadId : Option String := none
deriving DecidableEq

/-- Placeholder item for the out-of-range case of list indexing; never hit in
the flows proved below because validation forces the response length to match
`transfer_items`. -/
def dummyItem : Item := { contentIdentifier := "", localIdentifier := "" }

/-- One entry of the add-items response JSON array (api docs: `id`,
`content_identifier`, `meta.multipart_parts`, `meta.multipart_upload_id`). -/
structure RespItem where
  contentIdentifier : String
  id : String
  multipartParts : Nat
  multipartUploadId : String
deriving DecidableEq

/-- `File.load_info` with the keyword arguments passed by
`Transfer.add_items` (transfer.py lines 71-77). -/
def Item.load_info (it : Item) (id : String) (transferId : Option String)
    (copts : ClientOptions) (mparts : Nat) (mupId : String) : Item :=
  { it with
    id := some id
    transferId := transferId
    clientOptions := some copts
    multipartParts := some mparts
    multipartUploadId := some mupId }

def pyStrOpt : Option String → String
  | none => "None"
  | some s => s

def pyNatOpt : Option Nat → String
  | none => "None"
  | some n => toString n

/-- `File.__str__` / `Link.__str__` (items.py), selected by the item's type
tag. -/
def Item.str (it : Item) : String :=
  if it.contentIdentifier = "web_content" then
    "Transfer item, link type, with title " ++ it.title ++ ", url " ++ it.url
      ++ " and local identifier " ++ it.localIdentifier
  else
    "Transfer item, file type, with size " ++ toString it.filesize ++ ", name "
      ++ it.filename ++ ", and local path " ++ it.localIdentifier ++ ", has "
      ++ pyNatOpt it.multipartParts ++ " multi parts"

/-- Python repr of a list of strings, as produced by formatting
`[str(i) for i in items]`. -/
def pyStrList (l : List String) : String :=
  "[" ++ String.intercalate ", " (l.map (fun s => "\x27" ++ s ++ "\x27")) ++ "]"

/-- State of a `Transfer` object (transfer.py).  `transfer_files` holds
references to objects stored in `transfer_items`; since `transfer_items` only
ever grows at its end, a Python reference is modelled by the index of the
referenced object in `transferItems`.  `shortenedUrl = none` models the
`shortened_url` attribute not existing yet (it is first assigned inside a
successful `create()`). -/
structure TransferState where
  transferId : Option String
  transferItems : List Item
  transferFiles : List Nat
  name : String
  clientOptions : ClientOptions
  shortenedUrl : Option String
deriving DecidableEq

/-- `Transfer.__init__` (transfer.py lines 12-24). -/
def Transfer.init (name key : String) (token server : Option String) : TransferState :=
  { transferId := none
    transferItems := []
    transferFiles := []
    name := name
    clientOptions := { name := name, key := key, token := token, server := server }
    shortenedUrl := none }

/-- `Transfer.create` (transfer.py lines 26-42): POST CreateTransfer; on a
non-ok response log and return `false` with the state unchanged; on success
store the body's `id` and `shortened_url` and return `true`. -/
def Transfer.create (st : TransferState) (respOk : Bool) (respId respUrl : String) :
    TransferState × Bool :=
  if !respOk then (st, false)
  else ({ st with transferId := some respId, shortenedUrl := some respUrl }, true)

/-- The message logged by `validate_add_items_response` when the response is
not HTTP-success. -/
def addItemsFailMsg (transferItems : List Item) (tid : Option String) : String :=
  "Failed to add items: " ++ pyStrList (transferItems.map Item.str)
    ++ " to transfer " ++ pyStrOpt tid

/-- The message logged by `validate_add_items_response` when the response
array length differs from the number of items held. -/
def addItemsCountMsg (sent returned : Nat) : String :=
  "Add items API call didn\x27t return same number of items ("
    ++ toString returned ++ ") than what we sent (" ++ toString sent ++ ")"

/-- `Transfer.validate_add_items_response` (transfer.py lines 82-100):
returns the boolean result together with the error message logged, if any. -/
def validate_add_items_response (transferItems : List Item) (tid : Option String)
    (respOk : Bool) (respLen : Nat) : Bool × Option String :=
  if !respOk then (false, some (addItemsFailMsg transferItems tid))
  else if respLen ≠ transferItems.length then
    (false, some (addItemsCountMsg transferItems.length respLen))
  else (true, none)

/-- The response-processing loop of `Transfer.add_items` (transfer.py lines
67-78): `for index, item in enumerate(returned_items)`, with the enumeration
counter made explicit.  Entries whose `content_identifier` is "web_content"
are skipped; for the rest, `transfer_items[index].load_info(...)` is applied
and the reference to `transfer_items[index]` is appended to `transfer_files`.
(Validation has already forced `index` to be in range, so the `dummyItem`
default of `getD` is never used in the verified flows.) -/
def registerLoop (tid : Option String) (copts : ClientOptions) :
    Nat → List RespItem → TransferState → TransferState
  | _, [], st => st
  | index, r :: rest, st =>
    if r.contentIdentifier = "web_content" then
      registerLoop tid copts (index + 1) rest st
    else
      registerLoop tid copts (index + 1) rest
        { st with
          transferItems := st.transferItems.set index
            ((st.transferItems.getD index dummyItem).load_info r.id tid copts
              r.multipartParts r.multipartUploadId)
          transferFiles := st.transferFiles ++ [index] }

/-- `Transfer.upload_items` (transfer.py lines 102-114): iterate the
`transfer_files` references in order, aborting at the first failed
`item.upload()` (the oracle `uploadOk` gives each upload's boolean result).
Returns the references whose upload was attempted and the boolean result. -/
def upload_items (files : List Nat) (uploadOk : Nat → Bool) : List Nat × Bool :=
  match files with
  | [] => ([], true)
  | i :: rest =>
    if uploadOk i then
      let r := upload_items rest uploadOk
      (i :: r.1, r.2)
    else ([i], false)

/-- `Transfer.add_items` (transfer.py lines 44-80): extend `transfer_items`
with the new items, POST AddItems (response modelled by `respOk` and the
parsed array `resp`), validate, then process the response entries and invoke
`upload_items`.  Returns the new state, the references whose upload was
attempted, and the boolean returned to the caller. -/
def add_items (st : TransferState) (items : List Item) (respOk : Bool)
    (resp : List RespItem) (uploadOk : Nat → Bool) :
    TransferState × List Nat × Bool :=
  let st1 := { st with transferItems := st.transferItems ++ items }
  if !(validate_add_items_response st1.transferItems st1.transferId respOk resp.length).1 then
    (st1, [], false)
  else
    let st2 := registerLoop st1.transferId st1.clientOptions 0 resp st1
    let r := upload_items st2.transferFiles uploadOk
    (st2, r.1, r.2)

/-- The indices `k, k+1, …` of the entries of `L` whose `content_identifier`
is not "web_content" (the references `add_items` appends to
`transfer_files`). -/
def nonWebIdxFrom : Nat → List RespItem → List Nat
  | _, [] => []
  | k, r :: rest =>
    if r.contentIdentifier = "web_content" then nonWebIdxFrom (k + 1) rest
    else k :: nonWebIdxFrom (k + 1) rest

/-- The positions of a transfer's item list holding non-"web_content" items
(used to state the claimed `transfer_files` / `transfer_items` mirror
invariant). -/
def itemNonWebPositions : Nat → List Item → List Nat
  | _, [] => []
  | k, it :: rest =>
    if it.contentIdentifier = "web_content" then itemNonWebPositions (k + 1) rest
    else k :: itemNonWebPositions (k + 1) rest

/-- `Transfer.add_files` and `add_links` take either one value or a list. -/
inductive PyStrOrList
  | single (s : String)
  | list (l : List String)

/-- `os.path.split`'s tail component, used by `File._init_file` for the
display filename. -/
def pathBasename (p : String) : String :=
  (p.splitOn "/").getLastD ""

/-- `File.__init__` / `File._init_file` (items.py lines 14-31):
`os.path.getsize` raises `OSError` when the path does not exist.  The local
filesystem is an association list from path to file size; path normalisation
(`abspath` / `expanduser`) is not modelled — paths are taken as already
absolute.  A raised exception is modelled as `Except.error` with its
message. -/
def File.init (fs : List (String × Nat)) (filepath : String) : Except String Item :=
  match fs.lookup filepath with
  | none => Except.error ("OSError: No such file or directory: " ++ filepath)
  | some sz =>
    Except.ok
      { contentIdentifier := "file"
        localIdentifier := filepath
        filename := pathBasename filepath
        filesize := sz }

/-- The `with open(self.local_identifier) as f` line of `File.upload`
(items.py line 57): `open` raises `IOError` when the file cannot be opened
for reading, and nothing in `upload` catches it; otherwise the chunk loop
and the finish call run on the file's content (`File.uploadRun`).  The
readable filesystem is an association list from path to content — a path
absent from it (nonexistent or unreadable) cannot be opened.  A raised
exception is modelled as `Except.error` with its message. -/
def File.uploadFromFs (fsr : List (String × List Char)) (localIdentifier : String)
    (c : Nat) (ok : Nat → List Char → Bool) (finishOk : Bool) :
    Except String (List (Nat × List Char) × Nat × Bool) :=
  match fsr.lookup localIdentifier with
  | none => Except.error ("IOError: could not open file: " ++ localIdentifier)
  | some content => Except.ok (File.uploadRun c content ok finishOk)

/-- The CPython error raised by `return self.add_items()` in `add_files` and
`add_links`: `add_items` has signature `(self, items)` and the call supplies
no positional argument. -/
def addItemsMissingArgMsg : String :=
  "TypeError: add_items() missing 1 required positional argument: items"

/-- The CPython error raised by `Link(urls)` / `Link(url)` in `add_links`:
`Link.__init__` has signature `(self, url, title)` and the call supplies only
`url`. -/
def linkMissingTitleMsg : String :=
  "TypeError: __init__() missing 1 required positional argument: title"

/-- The append phase of `add_files`: construct `File(path)` for each path in
order and append it to `transfer_items`; a missing path raises `OSError` at
that point (mutations already made persist on the object, so the error
carries the state at the moment of the raise). -/
def appendFiles (fs : List (String × Nat)) (st : TransferState) :
    List String → Except (String × TransferState) TransferState
  | [] => Except.ok st
  | p :: rest =>
    match File.init fs p with
    | .error e => Except.error (e, st)
    | .ok f => appendFiles fs { st with transferItems := st.transferItems ++ [f] } rest

/-- `Transfer.add_files` (transfer.py lines 116-124): append a `File` per
given path (one for a single string, one per element for a list), then
execute `return self.add_items()` — which raises `TypeError` because
`add_items` requires the positional argument `items`.  The raise is modelled
as `Except.error` carrying the message and the state at the raise. -/
def add_files (fs : List (String × Nat)) (st : TransferState) (paths : PyStrOrList) :
    Except (String × TransferState) (TransferState × Bool) :=
  let stepped :=
    match paths with
    | .single p => appendFiles fs st [p]
    | .list ps => appendFiles fs st ps
  match stepped with
  | .error e => Except.error e
  | .ok st1 => Except.error (addItemsMissingArgMsg, st1)

/-- `Transfer.add_links` (transfer.py lines 126-134): each `Link(url)` call
raises `TypeError` at construction (missing the required `title` argument),
before anything is appended; with an empty list the loop body never runs and
the trailing `return self.add_items()` raises instead. -/
def add_links (st : TransferState) (urls : PyStrOrList) :
    Except (String × TransferState) (TransferState × Bool) :=
  match urls with
  | .single _ => Except.error (linkMissingTitleMsg, st)
  | .list [] => Except.error (addItemsMissingArgMsg, st)
  | .list (_ :: _) => Except.error (linkMissingTitleMsg, st)

/-- `Transfer.__str__` (transfer.py lines 136-144): formatting accesses
`self.shortened_url`, which raises `AttributeError` when the attribute was
never assigned (that assignment only happens inside a successful
`create()`). -/
def Transfer.toStr (st : TransferState) : Except String String :=
  match st.shortenedUrl with
  | none => Except.error "AttributeError: Transfer instance has no attribute shortened_url"
  | some u =>
    Except.ok ("Transfer with id: " ++ pyStrOpt st.transferId
      ++ ", can be found in short url: " ++ u ++ ", with following items: "
      ++ pyStrList (st.transferItems.map Item.str))

-- ### Client facade (client.py) and request headers (api_requests.py)

/-- `WTApiClient` state (client.py lines 13-16): key, optional server,
token (`None` until `authorize` succeeds). -/
structure Client where
  key : String
  server : Option String
  token : Option String
deriving DecidableEq

/-- `WTApiClient.authorize` (client.py lines 18-44): POST Authorize; on a
non-ok response log and return `False`; on success with no "token" key in
the JSON body log and return `False`; otherwise store `str(body["token"])`
and return `True`.  The JSON body is an association list of fields. -/
def authorize (cl : Client) (respOk : Bool) (body : List (String × JVal)) :
    Client × Bool :=
  if !respOk then (cl, false)
  else
    match body.lookup "token" with
    | none => (cl, false)
    | some v => ({ cl with token := some v.pyStr }, true)

/-- Python truthiness of `self.token` in `get_headers` (api_requests.py line
68): `None` and the empty string are falsy, any other string is truthy. -/
def tokenTruthy : Option String → Bool
  | none => false
  | some s => s != ""

/-- `dict.update`: overwrite the values of existing keys in place, append
unknown keys in order. -/
def dictUpdate (d ex : List (String × String)) : List (String × String) :=
  ex.foldl
    (fun acc kv =>
      if acc.any (fun p => p.1 == kv.1) then
        acc.map (fun p => if p.1 == kv.1 then (p.1, kv.2) else p)
      else acc ++ [kv])
    d

/-- `WTHTTP.get_headers` (api_requests.py lines 61-74): always User-Agent,
Content-Type and x-api-key; `Authorization: Bearer <token>` only when
`self.token` is truthy; finally `headers.update(self.headers)` when extra
headers were passed and are truthy (a non-empty dict). -/
def get_headers (agent key : String) (token : Option String)
    (extra : Option (List (String × String))) : List (String × String) :=
  let headers := [("User-Agent", agent), ("Content-Type", "application/json"),
    ("x-api-key", key)]
  let headers :=
    if tokenTruthy token then
      headers ++ [("Authorization", "Bearer " ++ token.getD "")]
    else headers
  match extra with
  | none => headers
  | some ex => if ex.isEmpty then headers else dictUpdate headers ex

/-- `WTApiClient.create_transfer` (client.py lines 46-62): build a `Transfer`
bound to the client's key/token/server and the given name, run its
`create()`; return the transfer on success, `None` otherwise. -/
def create_transfer (cl : Client) (transferName : String) (respOk : Bool)
    (respId respUrl : String) : Option TransferState :=
  let t := Transfer.init transferName cl.key cl.token cl.server
  let r := Transfer.create t respOk respId respUrl
  if r.2 then some r.1 else none

-- ### Concrete two-call scenario used to examine the transfer_files mirror
-- invariant across repeated add_items calls

def cexFileA : Item := { contentIdentifier := "file", localIdentifier := "a" }

def cexFileB : Item := { contentIdentifier := "file", localIdentifier := "b" }

def cexResp1 : RespItem :=
  { contentIdentifier := "file", id := "id1", multipartParts := 1, multipartUploadId := "u1" }

def cexResp2 : RespItem :=
  { contentIdentifier := "file", id := "id2", multipartParts := 1, multipartUploadId := "u2" }

/-- First `add_items` call: one file item, mirrored response, uploads succeed. -/
def cexRun1 : TransferState × List Nat × Bool :=
  add_items (Transfer.init "T" "k" (some "tok") none) [cexFileA] true [cexResp1]
    (fun _ => true)

/-- Second `add_items` call on the same transfer: one more file item; the
response array mirrors the full accumulated item list (both files). -/
def cexRun2 : TransferState × List Nat × Bool :=
  add_items cexRun1.1 [cexFileB] true [cexResp1, cexResp2] (fun _ => true)

-- ## Theorems

theorem readPiecesAux_nil (c fuel : Nat) : readPiecesAux c fuel [] = [] := by
  cases fuel <;> simp [readPiecesAux]

theorem readPiecesAux_cons (c f : Nat) (xs : List Char) (ht : xs.take c ≠ []) :
    readPiecesAux c (f + 1) xs = xs.take c :: readPiecesAux c f (xs.drop c) := by
  simp [readPiecesAux, ht]

theorem uploadLoopAux_cons (ok : Nat → List Char → Bool) (c f i : Nat)
    (xs : List Char) (ht : xs.take c ≠ []) (hok : ok i (xs.take c) = true) :
    uploadLoopAux ok c (f + 1) i xs =
      ((i, xs.take c) :: (uploadLoopAux ok c f (i + 1) (xs.drop c)).1,
        (uploadLoopAux ok c f (i + 1) (xs.drop c)).2) := by
  simp [uploadLoopAux, ht, hok]

theorem readPiecesAux_ne_nil (c fuel : Nat) (xs : List Char) (hc : 1 ≤ c)
    (hx : xs ≠ []) (hfuel : xs.length ≤ fuel) : readPiecesAux c fuel xs ≠ [] := by
  cases fuel with
  | zero =>
    cases xs with
    | nil => exact absurd rfl hx
    | cons a l => simp at hfuel
  | succ f =>
    have ht : xs.take c ≠ [] := by
      simp [List.take_eq_nil_iff]
      constructor
      · omega
      · exact hx
    simp [readPiecesAux, ht]

theorem readPiecesAux_length (c : Nat) (hc : 1 ≤ c) :
    ∀ (fuel : Nat) (xs : List Char), xs.length ≤ fuel →
      (readPiecesAux c fuel xs).length = (xs.length + c - 1) / c := by
  intro fuel
  induction fuel with
  | zero =>
    intro xs hx
    have : xs = [] := List.eq_nil_of_length_eq_zero (Nat.le_zero.mp hx)
    subst this
    simp [readPiecesAux, Nat.div_eq_of_lt (by omega : c - 1 < c)]
  | succ f ih =>
    intro xs hx
    by_cases ht : xs.take c = []
    · have hxnil : xs = [] := by
        rcases (List.take_eq_nil_iff).mp ht with h | h
        · omega
        · exact h
      subst hxnil
      simp [readPiecesAux, Nat.div_eq_of_lt (by omega : c - 1 < c)]
    · have hxne : xs ≠ [] := by
        intro h; subst h; simp at ht
      have hn1 : 1 ≤ xs.length := List.length_pos.mpr hxne
      have hdrop : (xs.drop c).length = xs.length - c := List.length_drop c xs
      have hrec := ih (xs.drop c) (by omega)
      rw [readPiecesAux_cons c f xs ht, List.length_cons, hrec, hdrop]
      by_cases hle : xs.length ≤ c
      · have h0 : xs.length - c = 0 := by omega
        rw [h0]
        have hz : (0 + c - 1) / c = 0 := Nat.div_eq_of_lt (by omega)
        rw [hz]
        have h1 : (xs.length + c - 1) / c = 1 := by
          apply Nat.div_eq_of_lt_le
          · omega
          · have : Nat.succ 1 * c = c + c := by ring
            omega
        omega
      · have heq : xs.length + c - 1 = (xs.length - 1) + c := by omega
        have heq2 : xs.length - c + c - 1 = (xs.length - 1 - c) + c := by omega
        rw [heq, heq2, Nat.add_div_right _ (by omega), Nat.add_div_right _ (by omega)]
        have heq3 : xs.length - 1 = (xs.length - 1 - c) + c := by omega
        rw [heq3, Nat.add_div_right _ (by omega)]
        have heq4 : xs.length - 1 - c + c - c = xs.length - 1 - c := by omega
        rw [heq4]

theorem readPiecesAux_dropLast_length (c : Nat) (hc : 1 ≤ c) :
    ∀ (fuel : Nat) (xs : List Char), xs.length ≤ fuel →
      ∀ p ∈ (readPiecesAux c fuel xs).dropLast, p.length = c := by
  intro fuel
  induction fuel with
  | zero =>
    intro xs hx
    have : xs = [] := List.eq_nil_of_length_eq_zero (Nat.le_zero.mp hx)
    subst this
    simp [readPiecesAux]
  | succ f ih =>
    intro xs hx
    by_cases ht : xs.take c = []
    · simp [readPiecesAux, ht]
    · rw [readPiecesAux_cons c f xs ht]
      by_cases hd : xs.drop c = []
      · rw [hd, readPiecesAux_nil]
        simp
      · have hdne : readPiecesAux c f (xs.drop c) ≠ [] := by
          apply readPiecesAux_ne_nil c f _ hc hd
          have : (xs.drop c).length = xs.length - c := List.length_drop c xs
          omega
        rcases List.exists_cons_of_ne_nil hdne with ⟨r, rs, hr⟩
        rw [hr, List.dropLast_cons₂]
        intro p hp
        rcases List.mem_cons.mp hp with h | h
        · subst h
          have hlen : c < xs.length := by
            by_contra hcon
            push_neg at hcon
            have : xs.drop c = [] := List.drop_eq_nil_of_le hcon
            exact hd this
          rw [List.length_take]
          omega
        · have := ih (xs.drop c) (by
            have : (xs.drop c).length = xs.length - c := List.length_drop c xs
            omega) p
          rw [hr] at this
          exact this h

theorem readPiecesAux_getLast_length (c : Nat) (hc : 1 ≤ c) :
    ∀ (fuel : Nat) (xs : List Char), xs.length ≤ fuel → xs ≠ [] →
      ∀ p ∈ (readPiecesAux c fuel xs).getLast?,
        p.length = if xs.length % c = 0 then c else xs.length % c := by
  intro fuel
  induction fuel with
  | zero =>
    intro xs hx hxne
    exact absurd (List.eq_nil_of_length_eq_zero (Nat.le_zero.mp hx)) hxne
  | succ f ih =>
    intro xs hx hxne
    have hn1 : 1 ≤ xs.length := List.length_pos.mpr hxne
    have ht : xs.take c ≠ [] := by
      simp [List.take_eq_nil_iff]
      exact ⟨by omega, hxne⟩
    rw [readPiecesAux_cons c f xs ht]
    by_cases hd : xs.drop c = []
    · rw [hd, readPiecesAux_nil]
      intro p hp
      simp [List.getLast?] at hp
      subst hp
      have hle : xs.length ≤ c := by
        by_contra hcon
        push_neg at hcon
        have : (xs.drop c).length = xs.length - c := List.length_drop c xs
        rw [hd] at this
        simp at this
        omega
      rw [List.length_take]
      by_cases hcc : xs.length = c
      · simp [hcc, Nat.mod_self]
      · have hlt : xs.length < c := by omega
        have hm : xs.length % c = xs.length := Nat.mod_eq_of_lt hlt
        rw [hm, if_neg (by omega : ¬xs.length = 0), Nat.min_eq_right hle]
    · have hdne : readPiecesAux c f (xs.drop c) ≠ [] := by
        apply readPiecesAux_ne_nil c f _ hc hd
        have : (xs.drop c).length = xs.length - c := List.length_drop c xs
        omega
      rcases List.exists_cons_of_ne_nil hdne with ⟨r, rs, hr⟩
      rw [hr, List.getLast?_cons_cons]
      intro p hp
      have hdroplen : (xs.drop c).length = xs.length - c := List.length_drop c xs
      have hcl : c < xs.length := by
        by_contra hcon
        push_neg at hcon
        exact hd (List.drop_eq_nil_of_le hcon)
      have hrec := ih (xs.drop c) (by omega) hd p
      rw [hr] at hrec
      have hmod : (xs.drop c).length % c = xs.length % c := by
        rw [hdroplen]
        have : xs.length = (xs.length - c) + c := by omega
        conv_rhs => rw [this]
        rw [Nat.add_mod_right]
      rw [hmod] at hrec
      exact hrec hp

theorem uploadLoopAux_allOk (c : Nat) :
    ∀ (fuel i : Nat) (xs : List Char),
      (uploadLoopAux (fun _ _ => true) c fuel i xs).1.map Prod.snd =
        readPiecesAux c fuel xs ∧
      (uploadLoopAux (fun _ _ => true) c fuel i xs).1.map Prod.fst =
        List.range' i (readPiecesAux c fuel xs).length ∧
      (uploadLoopAux (fun _ _ => true) c fuel i xs).2 = true := by
  intro fuel
  induction fuel with
  | zero => intro i xs; simp [uploadLoopAux, readPiecesAux]
  | succ f ih =>
    intro i xs
    by_cases ht : xs.take c = []
    · simp [uploadLoopAux, readPiecesAux, ht]
    · have hrec := ih (i + 1) (xs.drop c)
      rw [uploadLoopAux_cons (fun _ _ => true) c f i xs ht rfl,
        readPiecesAux_cons c f xs ht]
      refine ⟨?_, ?_, hrec.2.2⟩
      · simp only [List.map_cons]
        rw [hrec.1]
      · simp only [List.map_cons, List.length_cons, List.range'_succ]
        rw [hrec.2.1]

theorem chunking_loop_spec (c : Nat) (hc : 1 ≤ c) (xs : List Char) :
    let ps := (uploadLoopAux (fun _ _ => true) c xs.length 1 xs).1
    ps.length = (xs.length + c - 1) / c ∧
    ps.map Prod.fst = List.range' 1 ps.length ∧
    (∀ p ∈ ps.dropLast, p.2.length = c) ∧
    (∀ p ∈ ps.getLast?, p.2.length = if xs.length % c = 0 then c else xs.length % c) := by
  intro ps
  have hall := uploadLoopAux_allOk c xs.length 1 xs
  have hlen : ps.length = (readPiecesAux c xs.length xs).length := by
    have := congrArg List.length hall.1
    simpa using this
  refine ⟨?_, ?_, ?_, ?_⟩
  · rw [hlen, readPiecesAux_length c hc xs.length xs (le_refl _)]
  · rw [hall.2.1, hlen]
  · intro p hp
    have hmem : p.2 ∈ (ps.map Prod.snd).dropLast := by
      rw [← List.map_dropLast]
      exact List.mem_map_of_mem Prod.snd hp
    rw [hall.1] at hmem
    exact readPiecesAux_dropLast_length c hc xs.length xs (le_refl _) p.2 hmem
  · intro p hp
    have hxne : xs ≠ [] := by
      intro h
      subst h
      simp [uploadLoopAux, ps] at hp
    have hmem : p.2 ∈ (ps.map Prod.snd).getLast? := by
      rw [List.getLast?_map]
      exact Option.mem_map_of_mem Prod.snd hp
    rw [hall.1] at hmem
    exact readPiecesAux_getLast_length c hc xs.length xs (le_refl _) hxne p.2 hmem

/-- C1: for every chunk size `c ≥ 1` and content `xs` of length `n`, the
chunking loop of `File.upload` (all parts succeeding) makes exactly
`⌈n / c⌉` part uploads, numbered `1, 2, …, ⌈n/c⌉` in strictly increasing
order, each piece of length `c` except possibly the last, whose length is
`n % c` (or `c` when `c ∣ n`). -/
theorem upload_chunking_correct (c : Nat) (hc : 1 ≤ c) (xs : List Char) :
    (uploadParts c xs).length = (xs.length + c - 1) / c ∧
    (uploadParts c xs).map Prod.fst = List.range' 1 (uploadParts c xs).length ∧
    (∀ p ∈ (uploadParts c xs).dropLast, p.2.length = c) ∧
    (∀ p ∈ (uploadParts c xs).getLast?,
      p.2.length = if xs.length % c = 0 then c else xs.length % c) :=
  chunking_loop_spec c hc xs

/-- Witness for `upload_chunking_correct` at `c = 2`, content "12345". -/
theorem upload_chunking_correct_witness :
    1 ≤ 2 ∧
    ((uploadParts 2 "12345".data).length = (("12345".data).length + 2 - 1) / 2 ∧
     (uploadParts 2 "12345".data).map Prod.fst =
       List.range' 1 (uploadParts 2 "12345".data).length ∧
     (∀ p ∈ (uploadParts 2 "12345".data).dropLast, p.2.length = 2) ∧
     (∀ p ∈ (uploadParts 2 "12345".data).getLast?, p.2.length =
       if ("12345".data).length % 2 = 0 then 2 else ("12345".data).length % 2)) :=
  ⟨by decide, upload_chunking_correct 2 (by decide) "12345".data⟩

theorem uploadLoopAux_ok_iff (ok : Nat → List Char → Bool) (c : Nat) :
    ∀ (fuel i : Nat) (xs : List Char),
      (uploadLoopAux ok c fuel i xs).2 = true ↔
        ∀ p ∈ (uploadLoopAux ok c fuel i xs).1, ok p.1 p.2 = true := by
  intro fuel
  induction fuel with
  | zero => intro i xs; simp [uploadLoopAux]
  | succ f ih =>
    intro i xs
    by_cases ht : xs.take c = []
    · simp [uploadLoopAux, ht]
    · by_cases hok : ok i (xs.take c) = true
      · rw [uploadLoopAux_cons ok c f i xs ht hok]
        simp only [List.mem_cons]
        constructor
        · intro hb p hp
          rcases hp with h | h
          · subst h; exact hok
          · exact ((ih (i + 1) (xs.drop c)).mp hb) p h
        · intro hall
          exact (ih (i + 1) (xs.drop c)).mpr (fun p hp => hall p (Or.inr hp))
      · have hok' : ok i (xs.take c) = false := by
          cases h : ok i (xs.take c)
          · rfl
          · exact absurd h hok
        simp [uploadLoopAux, ht, hok']

theorem upload_run_spec (c : Nat) (content : List Char)
    (ok : Nat → List Char → Bool) (finishOk : Bool) :
    let r := File.uploadRun c content ok finishOk
    (content = [] → r.1 = [] ∧ r.2.1 = 1 ∧ r.2.2 = finishOk) ∧
    ((∃ p ∈ r.1, ok p.1 p.2 = false) → r.2.1 = 0 ∧ r.2.2 = false) ∧
    ((∀ p ∈ r.1, ok p.1 p.2 = true) → r.2.1 = 1 ∧ r.2.2 = finishOk) := by
  intro r
  have hparts : r.1 = (uploadLoopAux ok c content.length 1 content).1 := by
    simp only [r, File.uploadRun]
    cases (uploadLoopAux ok c content.length 1 content).2 <;> simp
  refine ⟨?_, ?_, ?_⟩
  · intro h
    subst h
    simp [File.uploadRun, uploadLoopAux, r]
  · intro hfail
    have hb : (uploadLoopAux ok c content.length 1 content).2 = false := by
      rcases hfail with ⟨p, hp, hpf⟩
      rw [hparts] at hp
      cases hcase : (uploadLoopAux ok c content.length 1 content).2
      · rfl
      · have := (uploadLoopAux_ok_iff ok c content.length 1 content).mp hcase p hp
        rw [this] at hpf
        exact absurd hpf (by simp)
    simp [File.uploadRun, r, hb]
  · intro hall
    rw [hparts] at hall
    have hb := (uploadLoopAux_ok_iff ok c content.length 1 content).mpr hall
    simp [File.uploadRun, r, hb]

/-- C5: `File.upload` issues the finish-upload POST exactly once after all
chunk uploads succeed (for empty content the loop body never runs and the
finish call is still made, with the result being the finish POST's success);
if any `upload_part` call fails, the result is `false` and no finish call is
made; when every `upload_part` call succeeds, exactly one finish call is made
and the result equals the finish POST's success. -/
theorem upload_finish_discipline (c : Nat) (content : List Char)
    (ok : Nat → List Char → Bool) (finishOk : Bool) :
    (content = [] → (File.uploadRun c content ok finishOk).1 = [] ∧
      (File.uploadRun c content ok finishOk).2.1 = 1 ∧
      (File.uploadRun c content ok finishOk).2.2 = finishOk) ∧
    ((∃ p ∈ (File.uploadRun c content ok finishOk).1, ok p.1 p.2 = false) →
      (File.uploadRun c content ok finishOk).2.1 = 0 ∧
      (File.uploadRun c content ok finishOk).2.2 = false) ∧
    ((∀ p ∈ (File.uploadRun c content ok finishOk).1, ok p.1 p.2 = true) →
      (File.uploadRun c content ok finishOk).2.1 = 1 ∧
      (File.uploadRun c content ok finishOk).2.2 = finishOk) :=
  upload_run_spec c content ok finishOk

/-- Witness for `upload_finish_discipline`: empty content, a failing part,
and an all-success run with a failing finish. -/
theorem upload_finish_discipline_witness :
    (let r := File.uploadRun 2 [] (fun _ _ => true) true
     r.1 = [] ∧ r.2.1 = 1 ∧ r.2.2 = true) ∧
    (let r := File.uploadRun 2 "abcd".data (fun _ _ => false) true
     r.2.1 = 0 ∧ r.2.2 = false) ∧
    (let r := File.uploadRun 2 "abcd".data (fun _ _ => true) false
     r.2.1 = 1 ∧ r.2.2 = false) := by
  refine ⟨?_, ?_, ?_⟩
  · exact (upload_finish_discipline 2 [] (fun _ _ => true) true).1 rfl
  · exact (upload_finish_discipline 2 "abcd".data (fun _ _ => false) true).2.1
      ⟨(1, ['a', 'b']), by decide, rfl⟩
  · exact (upload_finish_discipline 2 "abcd".data (fun _ _ => true) false).2.2
      (by decide)


-- ### add_items validation (C3) and failure frame (C6)

theorem string_head_append (s t : String) (c : Char) (cs : List Char)
    (h : s.data = c :: cs) : (s ++ t).data.head? = some c := by
  rw [String.data_append, h]
  rfl

theorem addItems_msgs_distinct (items : List Item) (tid : Option String) (a b : Nat) :
    addItemsFailMsg items tid ≠ addItemsCountMsg a b := by
  intro h
  have h1 : (addItemsFailMsg items tid).data.head? = some 'F' := by
    unfold addItemsFailMsg
    rw [String.append_assoc, String.append_assoc]
    exact string_head_append _ _ 'F' _ rfl
  have h2 : (addItemsCountMsg a b).data.head? = some 'A' := by
    unfold addItemsCountMsg
    rw [String.append_assoc, String.append_assoc, String.append_assoc]
    exact string_head_append _ _ 'A' _ rfl
  rw [h, h2] at h1
  exact absurd h1 (by decide)

/-- C3: `validate_add_items_response` returns `false` iff the response is not
HTTP-success or the response array length differs from the current
`transfer_items` count; each failure condition logs its own distinct message,
the count-mismatch one stating both counts (for 2 sent / 3 returned it
contains "didn't return same number of items (3) than what we sent (2)"), and
otherwise the validation returns `true` with nothing logged. -/
theorem validate_add_items_spec (items : List Item) (tid : Option String)
    (respOk : Bool) (respLen : Nat) :
    let v := validate_add_items_response items tid respOk respLen
    (v.1 = false ↔ (respOk = false ∨ respLen ≠ items.length)) ∧
    (respOk = false → v.2 = some (addItemsFailMsg items tid)) ∧
    (respOk = true → respLen ≠ items.length →
      v.2 = some (addItemsCountMsg items.length respLen)) ∧
    (addItemsFailMsg items tid ≠ addItemsCountMsg items.length respLen) ∧
    (v.1 = true → v.2 = none) ∧
    (addItemsCountMsg 2 3 =
      "Add items API call "
        ++ "didn\x27t return same number of items (3) than what we sent (2)") := by
  intro v
  refine ⟨?_, ?_, ?_, addItems_msgs_distinct items tid items.length respLen, ?_, by decide⟩
  · cases respOk with
    | false => simp [v, validate_add_items_response]
    | true =>
      by_cases h : respLen = items.length
      · simp [v, validate_add_items_response, h]
      · simp [v, validate_add_items_response, h]
  · intro h
    subst h
    simp [v, validate_add_items_response]
  · intro hok h
    subst hok
    simp [v, validate_add_items_response, h]
  · intro h1
    cases respOk with
    | false => simp [v, validate_add_items_response] at h1
    | true =>
      by_cases h : respLen = items.length
      · simp [v, validate_add_items_response, h]
      · simp [v, validate_add_items_response, h] at h1

/-- Witness for `validate_add_items_spec`: a non-ok response and an ok
response with 3 entries against 0 items held. -/
theorem validate_add_items_spec_witness :
    (validate_add_items_response [] none false 0).2 = some (addItemsFailMsg [] none) ∧
    (validate_add_items_response [] none true 3).2 = some (addItemsCountMsg 0 3) := by
  refine ⟨?_, ?_⟩
  · exact (validate_add_items_spec [] none false 0).2.1 rfl
  · exact (validate_add_items_spec [] none true 3).2.2.1 rfl (by decide)

/-- C6: `add_items` appends the given items before validating; on validation
failure it returns `false`, the appended items remain in `transfer_items`,
`transfer_files` is unchanged (the state is otherwise untouched), and no
upload is attempted. -/
theorem add_items_failure_frame (st : TransferState) (items : List Item)
    (respOk : Bool) (resp : List RespItem) (uploadOk : Nat → Bool)
    (h : respOk = false ∨ resp.length ≠ st.transferItems.length + items.length) :
    add_items st items respOk resp uploadOk =
      ({ st with transferItems := st.transferItems ++ items }, [], false) := by
  have hval : (validate_add_items_response (st.transferItems ++ items) st.transferId
      respOk resp.length).1 = false := by
    cases respOk with
    | false => simp [validate_add_items_response]
    | true =>
      have hne : ¬resp.length = st.transferItems.length + items.length := by
        rcases h with h | h
        · exact absurd h (by simp)
        · exact h
      simp [validate_add_items_response, List.length_append, hne]
  simp [add_items, hval]

/-- Witness for `add_items_failure_frame`: a non-ok response on a fresh
transfer. -/
theorem add_items_failure_frame_witness :
    add_items (Transfer.init "T" "k" none none) [cexFileA] false [] (fun _ => true) =
      ({ Transfer.init "T" "k" none none with
          transferItems := (Transfer.init "T" "k" none none).transferItems ++ [cexFileA] },
        [], false) :=
  add_items_failure_frame (Transfer.init "T" "k" none none) [cexFileA] false []
    (fun _ => true) (Or.inl rfl)

-- ### authorize (C4)

/-- C4: `authorize` returns `false` with the client unchanged on a non-ok
response; returns `false` with the client unchanged on an ok response whose
body has no "token" field; on an ok response with a "token" field it stores
`str` of that value as the token and returns `true`; and in every case the
key and server are untouched (no side effect beyond the token). -/
theorem authorize_spec (cl : Client) (body : List (String × JVal)) :
    (authorize cl false body = (cl, false)) ∧
    (body.lookup "token" = none → authorize cl true body = (cl, false)) ∧
    (∀ v, body.lookup "token" = some v →
      authorize cl true body = ({ cl with token := some v.pyStr }, true)) ∧
    (∀ respOk, (authorize cl respOk body).1.key = cl.key ∧
      (authorize cl respOk body).1.server = cl.server) := by
  refine ⟨by simp [authorize], ?_, ?_, ?_⟩
  · intro h
    simp [authorize, h]
  · intro v h
    simp [authorize, h]
  · intro respOk
    cases respOk with
    | false => simp [authorize]
    | true =>
      cases h : body.lookup "token" with
      | none => simp [authorize, h]
      | some v => simp [authorize, h]

/-- Witness for `authorize_spec`: an empty body (missing token) and a body
carrying `token = "abc"`. -/
theorem authorize_spec_witness :
    (authorize { key := "k", server := none, token := none } true [] =
      ({ key := "k", server := none, token := none }, false)) ∧
    (authorize { key := "k", server := none, token := none } true
        [("token", JVal.jstr "abc")] =
      ({ key := "k", server := none, token := some "abc" }, true)) := by
  refine ⟨?_, ?_⟩
  · exact (authorize_spec { key := "k", server := none, token := none } []).2.1 rfl
  · exact (authorize_spec { key := "k", server := none, token := none }
      [("token", JVal.jstr "abc")]).2.2.1 (JVal.jstr "abc") rfl

-- ### add_files / add_links wrappers (C7) and failure propagation (C8)

/-- C7 fails on the code: for every input (single string or list), both
`add_files` and `add_links` raise a `TypeError` instead of completing and
returning `add_items`' boolean — `add_files` because the final
`return self.add_items()` omits the required positional argument `items`,
`add_links` additionally because `Link(url)` omits the required `title`
argument. -/
theorem add_wrappers_always_raise (fs : List (String × Nat)) (st : TransferState)
    (input : PyStrOrList) :
    (∃ e, add_files fs st input = Except.error e) ∧
    (∃ e, add_links st input = Except.error e) := by
  constructor
  · cases input with
    | single p =>
      cases happ : appendFiles fs st [p] with
      | error e => exact ⟨e, by simp [add_files, happ]⟩
      | ok st1 => exact ⟨(addItemsMissingArgMsg, st1), by simp [add_files, happ]⟩
    | list ps =>
      cases happ : appendFiles fs st ps with
      | error e => exact ⟨e, by simp [add_files, happ]⟩
      | ok st1 => exact ⟨(addItemsMissingArgMsg, st1), by simp [add_files, happ]⟩
  · cases input with
    | single s => exact ⟨(linkMissingTitleMsg, st), rfl⟩
    | list l =>
      cases l with
      | nil => exact ⟨(addItemsMissingArgMsg, st), rfl⟩
      | cons a as => exact ⟨(linkMissingTitleMsg, st), rfl⟩

/-- C8 counterexample: constructing a `File` for a nonexistent path raises
`OSError` (modelled as `Except.error`) instead of surfacing the failure
through the boolean/absent-value convention. -/
theorem file_init_missing_path_raises :
    File.init [] "missing.txt" =
      Except.error "OSError: No such file or directory: missing.txt" := rfl

/-- C8 (amended): HTTP-level failures are signalled by boolean `false`
returns (authorize, add_items validation, a failed finish-upload POST), but
local filesystem errors are raised as exceptions: `File` construction raises
`OSError` exactly when the path is absent (and returns the item otherwise),
and `upload`'s `open` raises `IOError` exactly when the file cannot be
opened (otherwise `upload` runs the chunk loop and finish call on the
content and returns their boolean). -/
theorem failure_propagation (fs : List (String × Nat)) (p : String)
    (fsr : List (String × List Char)) (q : String)
    (cl : Client) (body : List (String × JVal)) (st : TransferState)
    (items : List Item) (resp : List RespItem) (upOk : Nat → Bool)
    (c : Nat) (content : List Char) (ok : Nat → List Char → Bool) (finishOk : Bool) :
    (fs.lookup p = none → ∃ e, File.init fs p = Except.error e) ∧
    (∀ sz, fs.lookup p = some sz → ∃ it, File.init fs p = Except.ok it) ∧
    (fsr.lookup q = none → ∃ e, File.uploadFromFs fsr q c ok finishOk = Except.error e) ∧
    (∀ cont, fsr.lookup q = some cont →
      File.uploadFromFs fsr q c ok finishOk = Except.ok (File.uploadRun c cont ok finishOk)) ∧
    (authorize cl false body).2 = false ∧
    (add_items st items false resp upOk).2.2 = false ∧
    (File.uploadRun c content ok false).2.2 = false := by
  refine ⟨?_, ?_, ?_, ?_, by simp [authorize], ?_, ?_⟩
  · intro h
    exact ⟨"OSError: No such file or directory: " ++ p, by simp [File.init, h]⟩
  · intro sz h
    exact ⟨{ contentIdentifier := "file", localIdentifier := p, filename := pathBasename p, filesize := sz }, by simp [File.init, h]⟩
  · intro h
    exact ⟨"IOError: could not open file: " ++ q, by simp [File.uploadFromFs, h]⟩
  · intro cont h
    simp [File.uploadFromFs, h]
  · have := add_items_failure_frame st items false resp upOk (Or.inl rfl)
    rw [this]
  · simp only [File.uploadRun]
    cases (uploadLoopAux ok c content.length 1 content).2 <;> simp

/-- Witness for `failure_propagation`: a missing path raises at construction,
a present path constructs the item; an unopenable path raises in `upload`, an
openable one runs the chunked upload on the content. -/
theorem failure_propagation_witness :
    (∃ e, File.init [] "a.txt" = Except.error e) ∧
    (∃ it, File.init [("b.txt", 3)] "b.txt" = Except.ok it) ∧
    (∃ e, File.uploadFromFs [] "a.txt" 2 (fun _ _ => true) true = Except.error e) ∧
    (File.uploadFromFs [("b.txt", "abc".data)] "b.txt" 2 (fun _ _ => true) true =
      Except.ok (File.uploadRun 2 "abc".data (fun _ _ => true) true)) := by
  refine ⟨?_, ?_, ?_, ?_⟩
  · exact (failure_propagation [] "a.txt" [] "a.txt"
      { key := "k", server := none, token := none }
      [] (Transfer.init "T" "k" none none) [] [] (fun _ => true) 2 []
      (fun _ _ => true) true).1 rfl
  · exact (failure_propagation [("b.txt", 3)] "b.txt" [] "a.txt"
      { key := "k", server := none, token := none } [] (Transfer.init "T" "k" none none)
      [] [] (fun _ => true) 2 [] (fun _ _ => true) true).2.1 3 rfl
  · exact (failure_propagation [] "a.txt" [] "a.txt"
      { key := "k", server := none, token := none }
      [] (Transfer.init "T" "k" none none) [] [] (fun _ => true) 2 []
      (fun _ _ => true) true).2.2.1 rfl
  · exact (failure_propagation [] "a.txt" [("b.txt", "abc".data)] "b.txt"
      { key := "k", server := none, token := none }
      [] (Transfer.init "T" "k" none none) [] [] (fun _ => true) 2 []
      (fun _ _ => true) true).2.2.2.1 "abc".data rfl

-- ### Authorization header (C9)

/-- C9: `create_transfer` works on a client whose `authorize` never succeeded
(token unset): it returns a `Transfer` whenever the create POST succeeds, that
transfer's client options carry no token, and the headers built for its
requests contain no Authorization entry; in general the header set contains
"Authorization" exactly when the token is set to a non-empty string. -/
theorem create_transfer_headers (cl : Client) (hcl : cl.token = none)
    (transferName respId respUrl agent : String) :
    (∀ respOk t, create_transfer cl transferName respOk respId respUrl = some t →
      t.clientOptions.token = none ∧
      "Authorization" ∉ (get_headers agent t.clientOptions.key t.clientOptions.token
        none).map Prod.fst) ∧
    (∃ t, create_transfer cl transferName true respId respUrl = some t) ∧
    (∀ (key : String) (token : Option String),
      ("Authorization" ∈ (get_headers agent key token none).map Prod.fst) ↔
        ∃ s, token = some s ∧ s ≠ "") := by
  have hmem : ∀ (key : String) (token : Option String),
      ("Authorization" ∈ (get_headers agent key token none).map Prod.fst) ↔
        ∃ s, token = some s ∧ s ≠ "" := by
    intro key token
    cases token with
    | none => simp [get_headers, tokenTruthy]
    | some s =>
      by_cases h : s = ""
      · subst h
        simp [get_headers, tokenTruthy]
      · have hb : (s != "") = true := by
          simp [bne_iff_ne]
          exact h
        simp [get_headers, tokenTruthy, hb]
        exact h
  refine ⟨?_, ?_, hmem⟩
  · intro respOk t ht
    cases respOk with
    | false => simp [create_transfer, Transfer.create] at ht
    | true =>
      have ht' : t = { Transfer.init transferName cl.key cl.token cl.server with
          transferId := some respId, shortenedUrl := some respUrl } := by
        simp [create_transfer, Transfer.create] at ht
        exact ht.symm
      have htok : t.clientOptions.token = none := by
        rw [ht']
        simp [Transfer.init, hcl]
      refine ⟨htok, ?_⟩
      rw [htok]
      intro hmem2
      rcases (hmem t.clientOptions.key none).mp hmem2 with ⟨s, hs, _⟩
      exact Option.noConfusion hs
  · exact ⟨{ Transfer.init transferName cl.key cl.token cl.server with
      transferId := some respId, shortenedUrl := some respUrl },
      by simp [create_transfer, Transfer.create]⟩

/-- Witness for `create_transfer_headers` on a token-less client, also
instantiating the header iff with a set non-empty token. -/
theorem create_transfer_headers_witness :
    (∃ t, create_transfer { key := "k", server := none, token := none } "T" true "i" "u"
      = some t) ∧
    ("Authorization" ∈ (get_headers "agent" "k" (some "tok") none).map Prod.fst) := by
  refine ⟨?_, ?_⟩
  · exact (create_transfer_headers { key := "k", server := none, token := none } rfl
      "T" "i" "u" "agent").2.1
  · exact ((create_transfer_headers { key := "k", server := none, token := none } rfl
      "T" "i" "u" "agent").2.2 "k" (some "tok")).mpr ⟨"tok", rfl, by decide⟩

-- ### str() of a Transfer (C10)

theorem registerLoop_shortenedUrl (tid : Option String) (copts : ClientOptions) :
    ∀ (L : List RespItem) (k : Nat) (st : TransferState),
      (registerLoop tid copts k L st).shortenedUrl = st.shortenedUrl := by
  intro L
  induction L with
  | nil => intro k st; rfl
  | cons r rest ih =>
    intro k st
    by_cases h : r.contentIdentifier = "web_content"
    · simp [registerLoop, h, ih]
    · simp [registerLoop, h, ih]

theorem add_items_shortenedUrl (st : TransferState) (items : List Item)
    (respOk : Bool) (resp : List RespItem) (uploadOk : Nat → Bool) :
    (add_items st items respOk resp uploadOk).1.shortenedUrl = st.shortenedUrl := by
  cases hval : (validate_add_items_response (st.transferItems ++ items) st.transferId
      respOk resp.length).1 with
  | false => simp [add_items, hval]
  | true => simp [add_items, hval, registerLoop_shortenedUrl]

/-- C10: `str` of a Transfer reads `shortened_url`, which only a successful
`create()` assigns: on a fresh transfer it raises `AttributeError`, a failed
`create()` leaves the state (hence the failure) unchanged, `add_items` never
assigns it either, and after a successful `create()` the string conversion
always succeeds. -/
theorem transfer_str_requires_create (name key : String) (token server : Option String)
    (st : TransferState) (respId respUrl : String) :
    ((Transfer.init name key token server).shortenedUrl = none) ∧
    (∃ e, Transfer.toStr (Transfer.init name key token server) = Except.error e) ∧
    ((Transfer.create st false respId respUrl).1 = st) ∧
    (∃ s, Transfer.toStr (Transfer.create st true respId respUrl).1 = Except.ok s) ∧
    (∀ items respOk resp upOk,
      (add_items st items respOk resp upOk).1.shortenedUrl = st.shortenedUrl) ∧
    (st.shortenedUrl = none → ∃ e, Transfer.toStr st = Except.error e) := by
  refine ⟨rfl, ⟨_, rfl⟩, by simp [Transfer.create], ?_, ?_, ?_⟩
  · refine ⟨"Transfer with id: " ++ pyStrOpt (some respId)
      ++ ", can be found in short url: " ++ respUrl ++ ", with following items: "
      ++ pyStrList (List.map Item.str st.transferItems), ?_⟩
    simp [Transfer.create, Transfer.toStr]
  · intro items respOk resp upOk
    exact add_items_shortenedUrl st items respOk resp upOk
  · intro h
    simp [Transfer.toStr, h]

/-- Witness for `transfer_str_requires_create`: the state after a failed
`create()` on a fresh transfer still has no `shortened_url`, so `str` raises. -/
theorem transfer_str_requires_create_witness :
    ∃ e, Transfer.toStr (Transfer.create (Transfer.init "T" "k" none none) false "i" "u").1
      = Except.error e := by
  have hfail : (Transfer.create (Transfer.init "T" "k" none none) false "i" "u").1
      = Transfer.init "T" "k" none none :=
    (transfer_str_requires_create "T" "k" none none (Transfer.init "T" "k" none none)
      "i" "u").2.2.1
  rw [hfail]
  exact (transfer_str_requires_create "T" "k" none none (Transfer.init "T" "k" none none)
    "i" "u").2.2.2.2.2 rfl

-- ### The transfer_files / transfer_items correlation (C2)

theorem getD_set_ne (l : List Item) (i j : Nat) (v : Item) (h : i ≠ j) :
    (l.set i v).getD j dummyItem = l.getD j dummyItem := by
  rw [List.getD_eq_getD_get?, List.getD_eq_getD_get?, List.get?_eq_getElem?,
    List.get?_eq_getElem?, List.getElem?_set_ne h]

theorem getD_set_self (l : List Item) (i : Nat) (v : Item) (h : i < l.length) :
    (l.set i v).getD i dummyItem = v := by
  rw [List.getD_eq_getD_get?, List.get?_eq_getElem?, List.getElem?_set_eq_of_lt v h]
  rfl

theorem registerLoop_length (tid : Option String) (copts : ClientOptions) :
    ∀ (L : List RespItem) (k : Nat) (st : TransferState),
      (registerLoop tid copts k L st).transferItems.length = st.transferItems.length := by
  intro L
  induction L with
  | nil => intro k st; rfl
  | cons r rest ih =>
    intro k st
    by_cases h : r.contentIdentifier = "web_content"
    · simp [registerLoop, h, ih]
    · simp [registerLoop, h, ih, List.length_set]

theorem registerLoop_files (tid : Option String) (copts : ClientOptions) :
    ∀ (L : List RespItem) (k : Nat) (st : TransferState),
      (registerLoop tid copts k L st).transferFiles =
        st.transferFiles ++ nonWebIdxFrom k L := by
  intro L
  induction L with
  | nil => intro k st; simp [registerLoop, nonWebIdxFrom]
  | cons r rest ih =>
    intro k st
    by_cases h : r.contentIdentifier = "web_content"
    · simp [registerLoop, nonWebIdxFrom, h, ih]
    · simp [registerLoop, nonWebIdxFrom, h, ih]

theorem registerLoop_getD_lt (tid : Option String) (copts : ClientOptions) :
    ∀ (L : List RespItem) (k : Nat) (st : TransferState) (j : Nat), j < k →
      (registerLoop tid copts k L st).transferItems.getD j dummyItem =
        st.transferItems.getD j dummyItem := by
  intro L
  induction L with
  | nil => intro k st j hj; rfl
  | cons r rest ih =>
    intro k st j hj
    by_cases h : r.contentIdentifier = "web_content"
    · simp only [registerLoop, h, if_pos]
      exact ih (k + 1) st j (by omega)
    · simp only [registerLoop, h, if_neg, ite_false]
      rw [ih (k + 1) _ j (by omega)]
      exact getD_set_ne _ _ _ _ (by omega)

theorem registerLoop_populates (tid : Option String) (copts : ClientOptions) :
    ∀ (L : List RespItem) (k : Nat) (st : TransferState) (j : Nat) (hj : j < L.length),
      (L.get ⟨j, hj⟩).contentIdentifier ≠ "web_content" →
      k + j < st.transferItems.length →
      (registerLoop tid copts k L st).transferItems.getD (k + j) dummyItem =
        (st.transferItems.getD (k + j) dummyItem).load_info (L.get ⟨j, hj⟩).id tid copts
          (L.get ⟨j, hj⟩).multipartParts (L.get ⟨j, hj⟩).multipartUploadId := by
  intro L
  induction L with
  | nil => intro k st j hj; simp at hj
  | cons r rest ih =>
    intro k st j hj hweb hlt
    cases j with
    | zero =>
      have hr : r.contentIdentifier ≠ "web_content" := hweb
      simp only [registerLoop, hr, if_neg, ite_false]
      rw [registerLoop_getD_lt tid copts rest (k + 1) _ (k + 0) (by omega)]
      have hk : k + 0 = k := by omega
      rw [hk]
      exact getD_set_self _ _ _ (by omega)
    | succ j' =>
      have hj' : j' < rest.length := by simpa using hj
      have hstep : k + (j' + 1) = (k + 1) + j' := by omega
      by_cases h : r.contentIdentifier = "web_content"
      · simp only [registerLoop, h, if_pos]
        rw [hstep]
        exact ih (k + 1) st j' hj' hweb (by omega)
      · simp only [registerLoop, h, if_neg, ite_false]
        rw [hstep]
        have hlen : (st.transferItems.set k ((st.transferItems.getD k dummyItem).load_info
            r.id tid copts r.multipartParts r.multipartUploadId)).length
            = st.transferItems.length := List.length_set _ _ _
        have := ih (k + 1)
          { st with
            transferItems := st.transferItems.set k
              ((st.transferItems.getD k dummyItem).load_info r.id tid copts
                r.multipartParts r.multipartUploadId)
            transferFiles := st.transferFiles ++ [k] }
          j' hj' hweb (by simp only [hlen]; omega)
        rw [this]
        rw [getD_set_ne _ _ _ _ (by omega)]
        rfl

theorem nonWebIdxFrom_mem :
    ∀ (L : List RespItem) (k i : Nat), i ∈ nonWebIdxFrom k L → k ≤ i ∧ i < k + L.length := by
  intro L
  induction L with
  | nil => intro k i h; simp [nonWebIdxFrom] at h
  | cons r rest ih =>
    intro k i h
    by_cases hw : r.contentIdentifier = "web_content"
    · simp only [nonWebIdxFrom, hw, if_pos] at h
      have := ih (k + 1) i h
      constructor <;> [omega; (simp only [List.length_cons]; omega)]
    · simp only [nonWebIdxFrom, hw, if_neg, ite_false] at h
      rcases List.mem_cons.mp h with h | h
      · subst h
        simp only [List.length_cons]
        omega
      · have := ih (k + 1) i h
        constructor <;> [omega; (simp only [List.length_cons]; omega)]

theorem nonWebIdxFrom_pairwise :
    ∀ (L : List RespItem) (k : Nat), (nonWebIdxFrom k L).Pairwise (· < ·) := by
  intro L
  induction L with
  | nil => intro k; simp [nonWebIdxFrom]
  | cons r rest ih =>
    intro k
    by_cases hw : r.contentIdentifier = "web_content"
    · simp only [nonWebIdxFrom, hw, if_pos]
      exact ih (k + 1)
    · simp only [nonWebIdxFrom, hw, if_neg, ite_false]
      refine List.Pairwise.cons ?_ (ih (k + 1))
      intro i hi
      have := nonWebIdxFrom_mem rest (k + 1) i hi
      omega

theorem nonWebIdxFrom_mem_of :
    ∀ (L : List RespItem) (k j : Nat) (hj : j < L.length),
      (L.get ⟨j, hj⟩).contentIdentifier ≠ "web_content" → k + j ∈ nonWebIdxFrom k L := by
  intro L
  induction L with
  | nil => intro k j hj; simp at hj
  | cons r rest ih =>
    intro k j hj hweb
    cases j with
    | zero =>
      have hr : r.contentIdentifier ≠ "web_content" := hweb
      simp only [nonWebIdxFrom, hr, if_neg, ite_false]
      simp
    | succ j' =>
      have hj' : j' < rest.length := by simpa using hj
      have hstep : k + (j' + 1) = (k + 1) + j' := by omega
      by_cases hw : r.contentIdentifier = "web_content"
      · simp only [nonWebIdxFrom, hw, if_pos]
        rw [hstep]
        exact ih (k + 1) j' hj' hweb
      · simp only [nonWebIdxFrom, hw, if_neg, ite_false]
        rw [hstep]
        exact List.mem_cons_of_mem _ (ih (k + 1) j' hj' hweb)

theorem validate_true_iff (items : List Item) (tid : Option String)
    (respOk : Bool) (respLen : Nat) :
    (validate_add_items_response items tid respOk respLen).1 = true ↔
      (respOk = true ∧ respLen = items.length) := by
  cases respOk with
  | false => simp [validate_add_items_response]
  | true =>
    by_cases h : respLen = items.length
    · simp [validate_add_items_response, h]
    · simp [validate_add_items_response, h]

/-- C2 counterexample: two successful `add_items` calls on the same transfer
(the second response array mirrors the full accumulated item list, as the
code sends it).  The first file's reference is appended to `transfer_files`
again during the second call, so `transfer_files` is no longer a subsequence
of the non-"web_content" positions of `transfer_items`: the claimed
invariant is not kept by every operation. -/
theorem add_items_second_call_breaks_invariant :
    cexRun1.2.2 = true ∧ cexRun2.2.2 = true ∧
    ¬ List.Sublist cexRun2.1.transferFiles
      (itemNonWebPositions 0 cexRun2.1.transferItems) := by
  decide

/-- C2 (amended): after the first successful `add_items` call (that is, one
performed while `transfer_files` is still empty), `transfer_files` is exactly
the strictly increasing list of indices whose response entry is not
"web_content", and every such index references an item populated via
`load_info` with the response entry's id and meta fields, the transfer id and
the shared client options, and appears in `transfer_files`.  A second
`add_items` call re-appends every earlier reference, breaking the mirror
property (see the counterexample), so the invariant is stated for the first
call only. -/
theorem add_items_first_call_invariant (st : TransferState) (items : List Item)
    (respOk : Bool) (resp : List RespItem) (uploadOk : Nat → Bool)
    (hfiles : st.transferFiles = [])
    (hsucc : (add_items st items respOk resp uploadOk).2.2 = true) :
    let st2 := (add_items st items respOk resp uploadOk).1
    st2.transferFiles = nonWebIdxFrom 0 resp ∧
    st2.transferFiles.Pairwise (· < ·) ∧
    st2.transferItems.length = st.transferItems.length + items.length ∧
    (∀ j (hj : j < resp.length),
      (resp.get ⟨j, hj⟩).contentIdentifier ≠ "web_content" →
      j ∈ st2.transferFiles ∧
      st2.transferItems.getD j dummyItem =
        ((st.transferItems ++ items).getD j dummyItem).load_info (resp.get ⟨j, hj⟩).id
          st.transferId st.clientOptions (resp.get ⟨j, hj⟩).multipartParts
          (resp.get ⟨j, hj⟩).multipartUploadId) := by
  intro st2
  cases hval : (validate_add_items_response (st.transferItems ++ items) st.transferId
      respOk resp.length).1 with
  | false =>
    exfalso
    simp [add_items, hval] at hsucc
  | true =>
    obtain ⟨hok, hlen⟩ := (validate_true_iff _ _ _ _).mp hval
    have hst2 : st2 = registerLoop st.transferId st.clientOptions 0 resp
        { st with transferItems := st.transferItems ++ items } := by
      simp [st2, add_items, hval]
    refine ⟨?_, ?_, ?_, ?_⟩
    · rw [hst2, registerLoop_files]
      simp [hfiles]
    · rw [hst2, registerLoop_files]
      simp [hfiles]
      exact nonWebIdxFrom_pairwise resp 0
    · rw [hst2, registerLoop_length]
      simp [List.length_append]
    · intro j hj hweb
      have hb : j < (st.transferItems ++ items).length := by
        rw [← hlen]
        exact hj
      constructor
      · rw [hst2, registerLoop_files]
        simp only [hfiles]
        have := nonWebIdxFrom_mem_of resp 0 j hj hweb
        simpa using this
      · have := registerLoop_populates st.transferId st.clientOptions resp 0
          { st with transferItems := st.transferItems ++ items } j hj hweb
          (by simpa using hb)
        rw [hst2]
        simpa using this

/-- Witness for `add_items_first_call_invariant`: one file item on a fresh
transfer with a mirrored one-entry response. -/
theorem add_items_first_call_invariant_witness :
    (add_items (Transfer.init "T" "k" (some "tok") none) [cexFileA] true [cexResp1]
      (fun _ => true)).1.transferFiles = nonWebIdxFrom 0 [cexResp1] :=
  (add_items_first_call_invariant (Transfer.init "T" "k" (some "tok") none) [cexFileA]
    true [cexResp1] (fun _ => true) rfl (by decide)).1

end WeTransferSDK
